import Mathlib

/-!
# Verification of the dynamodbfriend query layer

A shallow embedding of the query-construction and execution core of the
`dynamodbfriend` Go package: the filter/condition model and fluent builder
(`queryfilter.go`, `queryexprkey.go`, `queryexpr.go`), the index-viability and
index-selection algorithm (`query.go`), the expression-compilation step
(`queryexpr.go`, `constructQueryInputGivenIndex`), and the lazy pagination
parser (`queryparser.go`, `QueryParser.Next`).

Go `interface{}` attribute values are embedded as the inductive `Value`;
DynamoDB attribute maps (`map[string]*dynamodb.AttributeValue`) as association
lists `AttrMap`.  Logging calls (`expr.logger.Printf`) are side-effect-free
collaborators and are dropped; where a branch is distinguishable only by its
log line, the embedding keeps the distinction as an explicit reason tag.
-/

set_option autoImplicit false

namespace Dynamodbfriend

/-- An attribute value (Go `interface{}` / DynamoDB attribute value). -/
inductive Value where
  | str (s : String)
  | int (n : Int)
  | bool (b : Bool)
  deriving DecidableEq

/-- A raw record: `map[string]*dynamodb.AttributeValue` as an association list. -/
def AttrMap := List (String × Value)
  deriving DecidableEq

/-- The seven query filter variants of `queryfilter.go`.  Each Go filter struct
(`equalsFilter`, `lessThanFilter`, …) carries the attribute key plus its
operand(s); `queryFilter` is the common interface exposing `Key()`. -/
inductive Filter where
  | equals (key : String) (value : Value)
  | lessThan (key : String) (value : Value)
  | greaterThan (key : String) (value : Value)
  | lessThanEqual (key : String) (value : Value)
  | greaterThanEqual (key : String) (value : Value)
  | between (key : String) (lowval highval : Value)
  | beginsWith (key : String) (pfx : String)
  deriving DecidableEq

/-- `queryFilter.Key()`: every filter variant returns its `key` field. -/
def Filter.key : Filter → String
  | .equals k _ => k
  | .lessThan k _ => k
  | .greaterThan k _ => k
  | .lessThanEqual k _ => k
  | .greaterThanEqual k _ => k
  | .between k _ _ => k
  | .beginsWith k _ => k

/-- The runtime type of a filter, as used by `reflect.TypeOf` in
`QueryExpr.getKeysOfFilterType`: Go compares the concrete struct pointer types,
which is exactly the constructor discriminant here. -/
inductive FilterVariant where
  | equalsV
  | lessThanV
  | greaterThanV
  | lessThanEqualV
  | greaterThanEqualV
  | betweenV
  | beginsWithV
  deriving DecidableEq

/-- The discriminant of a filter (its Go runtime type). -/
def Filter.variant : Filter → FilterVariant
  | .equals _ _ => .equalsV
  | .lessThan _ _ => .lessThanV
  | .greaterThan _ _ => .greaterThanV
  | .lessThanEqual _ _ => .lessThanEqualV
  | .greaterThanEqual _ _ => .greaterThanEqualV
  | .between _ _ _ => .betweenV
  | .beginsWith _ _ => .beginsWithV

/-- The deferred build error recorded by `QueryExpr.addFilter` on a key
conflict.  In Go it is `fmt.Errorf("key \"%s\" already used in \"%s\"
condition", key, conditionName)`; the embedding keeps the two components the
message is built from. -/
structure BuildError where
  key : String
  conditionName : String
  deriving DecidableEq

/-- A filter-condition term of the AWS expression builder
(`expression.ConditionBuilder`).  The `raw` constructor stands for a
caller-supplied opaque condition attached via `QueryExpr.WithFilter`. -/
inductive Cond where
  | nameEqual (key : String) (v : Value)
  | nameLessThan (key : String) (v : Value)
  | nameGreaterThan (key : String) (v : Value)
  | nameLessThanEqual (key : String) (v : Value)
  | nameGreaterThanEqual (key : String) (v : Value)
  | nameBetween (key : String) (lo hi : Value)
  | nameBeginsWith (key : String) (pfx : String)
  | andAll (c0 c1 : Cond) (rest : List Cond)
  | raw (tag : String)

/-- `QueryExpr` (queryexpr.go): the accumulated condition specification.
The Go `filters map[string]queryFilter` is embedded as a list of filters,
unique per key by construction of `addFilter` (the map key is always
`v.Key()`, i.e. `Filter.key`).  Zero values mirror Go zero values. -/
structure QueryExpr where
  filters : List Filter := []
  limitSpecified : Bool := false
  limit : Int := 0
  attributesSpecified : Bool := false
  attributes : List String := []
  orderMatters : Bool := false
  orderKey : String := ""
  orderDescending : Bool := false
  maxPaginationSpecified : Bool := false
  maxPagination : Int := 0
  consistentRead : Bool := false
  additionalConditions : List Cond := []
  buildErr : Option BuildError := none

/-- `QueryExprKey` (queryexprkey.go): a partially-formed query expression,
a key waiting for its comparator. -/
structure QueryExprKey where
  expr : QueryExpr
  key : String

/-- `NewQuery` (queryexprkey.go): begins a new query expression with empty
filters, no additional conditions, and all options at their zero values. -/
def NewQuery (key : String) : QueryExprKey :=
  { expr := {}, key := key }

namespace QueryExpr

/-- `QueryExpr.And`: extends a query with an additional condition key. -/
def And (expr : QueryExpr) (key : String) : QueryExprKey :=
  { expr := expr, key := key }

/-- `QueryExpr.Limit`: restricts the number of items returnable by a query. -/
def Limit (expr : QueryExpr) (count : Int) : QueryExpr :=
  { expr with limitSpecified := true, limit := count }

/-- `QueryExpr.Select`: restricts the attributes returned by a query. -/
def Select (expr : QueryExpr) (attributes : List String) : QueryExpr :=
  { expr with attributesSpecified := true, attributes := attributes }

/-- `QueryExpr.OrderAscending`. -/
def OrderAscending (expr : QueryExpr) (sortKey : String) : QueryExpr :=
  { expr with orderMatters := true, orderKey := sortKey, orderDescending := false }

/-- `QueryExpr.OrderDescending`. -/
def OrderDescending (expr : QueryExpr) (sortKey : String) : QueryExpr :=
  { expr with orderMatters := true, orderKey := sortKey, orderDescending := true }

/-- `QueryExpr.MaxPagination`: restricts the number of paginated requests. -/
def MaxPagination (expr : QueryExpr) (count : Int) : QueryExpr :=
  { expr with maxPaginationSpecified := true, maxPagination := count }

/-- `QueryExpr.ConsistentRead` (queryexpr.go lines 98-108): sets the read
consistency; when `val` is true it additionally sets the max pagination to 1. -/
def ConsistentRead (expr : QueryExpr) (val : Bool) : QueryExpr :=
  let e := { expr with consistentRead := val }
  if val then { e with maxPaginationSpecified := true, maxPagination := 1 } else e

/-- `QueryExpr.WithFilter`: appends a caller-supplied raw condition. -/
def WithFilter (expr : QueryExpr) (condition : Cond) : QueryExpr :=
  { expr with additionalConditions := expr.additionalConditions ++ [condition] }

/-- Whether a filter for `key` is already present (Go:
`_, alreadyExists := expr.filters[key]`). -/
def hasFilterForKey (expr : QueryExpr) (key : String) : Bool :=
  expr.filters.any (fun f => f.key == key)

/-- `QueryExpr.addFilter` (queryexpr.go lines 125-135): if a filter for the
same key already exists, overwrite `buildErr` with an error naming the
conflicting key and the condition name and leave the filters untouched;
otherwise insert the filter. -/
def addFilter (expr : QueryExpr) (v : Filter) (conditionName : String) : QueryExpr :=
  let key := v.key
  if expr.hasFilterForKey key then
    { expr with buildErr := some { key := key, conditionName := conditionName } }
  else
    { expr with filters := expr.filters ++ [v] }

/-- `QueryExpr.getKeysOfFilterType` (queryexpr.go lines 137-150): the keys of
all filters whose runtime type matches `v`. -/
def getKeysOfFilterType (expr : QueryExpr) (v : FilterVariant) : List String :=
  (expr.filters.filter (fun f => f.variant == v)).map Filter.key

end QueryExpr

namespace QueryExprKey

/-- `QueryExprKey.Equals`. -/
def Equals (k : QueryExprKey) (val : Value) : QueryExpr :=
  k.expr.addFilter (.equals k.key val) "equals"

/-- `QueryExprKey.LessThan`. -/
def LessThan (k : QueryExprKey) (val : Value) : QueryExpr :=
  k.expr.addFilter (.lessThan k.key val) "less than"

/-- `QueryExprKey.GreaterThan`. -/
def GreaterThan (k : QueryExprKey) (val : Value) : QueryExpr :=
  k.expr.addFilter (.greaterThan k.key val) "greater than"

/-- `QueryExprKey.LessThanEqual`. -/
def LessThanEqual (k : QueryExprKey) (val : Value) : QueryExpr :=
  k.expr.addFilter (.lessThanEqual k.key val) "less than or equal"

/-- `QueryExprKey.GreaterThanEqual`. -/
def GreaterThanEqual (k : QueryExprKey) (val : Value) : QueryExpr :=
  k.expr.addFilter (.greaterThanEqual k.key val) "greater than or equal"

/-- `QueryExprKey.Between`. -/
def Between (k : QueryExprKey) (lowval highval : Value) : QueryExpr :=
  k.expr.addFilter (.between k.key lowval highval) "between"

/-- `QueryExprKey.BeginsWith`. -/
def BeginsWith (k : QueryExprKey) (pfx : String) : QueryExpr :=
  k.expr.addFilter (.beginsWith k.key pfx) "begins with"

end QueryExprKey

/-- `tableIndex` (table metadata, one per primary or secondary index).
A non-composite index has `IsComposite = false` and `SortKey = ""` (the Go
zero value). -/
structure TableIndex where
  Name : String
  TableName : String
  PartitionKey : String
  SortKey : String := ""
  IsComposite : Bool
  AttributeSet : List String := []
  IncludesAllAttributes : Bool
  Size : Int := 0
  ConsistentReadable : Bool
  deriving DecidableEq

/-- `tablePrimaryIndexName`: the reserved name of the primary index. -/
def tablePrimaryIndexName : String := "#primary"

/-- `Table`: a table handle with its index metadata.  The Go field
`allIndexes map[string]*tableIndex` is populated lazily by
`fetchIndexMetadata` (an external `DescribeTable` collaborator); the
embedding takes the populated metadata as given, as a list of index
descriptors. -/
structure Table where
  Name : String
  allIndexes : List TableIndex

/-- Errors surfaced by `Table.Query`. -/
inductive QueryError where
  | build (e : BuildError)
  | noViableIndexes (tableName : String)
  deriving DecidableEq

/-- `Table.getViableQueryIndexes` (query.go lines 82-160): starting from all
known indexes, remove in order (a) indexes whose partition key is not among
the Equals-filter keys, (b) if consistent read is requested, indexes that do
not support it, (c) if an order key is requested, indexes that do not sort on
it, (d) indexes that do not project every selected attribute (or, with no
selection, do not project all attributes).  Each step is a per-index
predicate, so the set-removal loop is a list filter. -/
def Table.getViableQueryIndexes (table : Table) (expr : QueryExpr) : List TableIndex :=
  let equalsFilterKeys := expr.getKeysOfFilterType .equalsV
  let step1 := table.allIndexes.filter (fun index =>
    equalsFilterKeys.contains index.PartitionKey)
  let step2 :=
    if expr.consistentRead then
      step1.filter (fun index => index.ConsistentReadable)
    else step1
  let step3 :=
    if expr.orderMatters then
      step2.filter (fun index => index.IsComposite && index.SortKey == expr.orderKey)
    else step2
  if expr.attributesSpecified then
    step3.filter (fun index =>
      index.IncludesAllAttributes ||
        expr.attributes.all (fun a => index.AttributeSet.contains a))
  else
    step3.filter (fun index => index.IncludesAllAttributes)

/-- The viable indexes whose sort key carries a filter of runtime type `v`
(the body of `getPriorityIndexesWithSortKeyOnFilterType` in
`Table.chooseIndex`, query.go lines 49-60). -/
def prioritySubset (expr : QueryExpr) (viable : List TableIndex) (v : FilterVariant) :
    List TableIndex :=
  viable.filter (fun index => (expr.getKeysOfFilterType v).contains index.SortKey)

/-- The priority set computed by `Table.chooseIndex` (query.go lines 47-72):
prefer viable indexes whose sort key has an Equals filter, else a BeginsWith
filter, else a Between filter, else fall back to the full viable set.  The Go
code accumulates into one shared name set with short-circuit `||`; since each
earlier stage contributed nothing when its check failed, that equals this
nested conditional. -/
def priorityIndexes (expr : QueryExpr) (viable : List TableIndex) : List TableIndex :=
  let eqSet := prioritySubset expr viable .equalsV
  if !eqSet.isEmpty then eqSet
  else
    let bwSet := prioritySubset expr viable .beginsWithV
    if !bwSet.isEmpty then bwSet
    else
      let btSet := prioritySubset expr viable .betweenV
      if !btSet.isEmpty then btSet
      else viable

/-- `Table.chooseIndex` (query.go lines 34-80) up to its final pick: fails
with `ErrNoViableIndexes` naming the table when no index is viable, otherwise
yields the priority set.  The Go code then returns `Names()[0]` of that set —
a member chosen in map-iteration order, documented as unspecified when the
set has more than one element. -/
def Table.chooseIndexCandidates (table : Table) (expr : QueryExpr) :
    Except QueryError (List TableIndex) :=
  let viable := table.getViableQueryIndexes expr
  if viable.isEmpty then .error (.noViableIndexes table.Name)
  else .ok (priorityIndexes expr viable)

/-- `Table.Query` (query.go lines 11-32) up to index choice: a recorded build
error fails the query immediately; otherwise the index is chosen.  (The
subsequent `constructQueryInputGivenIndex` call and parser construction are
embedded separately, since they consume the single index picked from the
candidate set in map-iteration order.) -/
def Table.Query (table : Table) (expr : QueryExpr) : Except QueryError (List TableIndex) :=
  match expr.buildErr with
  | some e => .error (.build e)
  | none => table.chooseIndexCandidates expr

/-- A key-condition expression term of the AWS expression builder
(`expression.KeyConditionBuilder`). -/
inductive KeyCond where
  | keyEqual (key : String) (v : Value)
  | keyLessThan (key : String) (v : Value)
  | keyGreaterThan (key : String) (v : Value)
  | keyLessThanEqual (key : String) (v : Value)
  | keyGreaterThanEqual (key : String) (v : Value)
  | keyBetween (key : String) (lo hi : Value)
  | keyBeginsWith (key : String) (pfx : String)
  | and (a b : KeyCond)
  deriving DecidableEq

/-- Failures of `constructQueryInputGivenIndex`.  `partitionAssertionPanic`
models the Go runtime panic of the unchecked type assertion
`filters[index.PartitionKey].(*equalsFilter)` when the partition key has no
Equals filter; `emptySelectPanic` models the out-of-range access `names[0]`
when `Select()` was called with zero attributes.  The Go `default:` branches
returning "unknown filter type" are unreachable here because `Filter` is a
closed inductive covering all seven variants the Go switch also covers. -/
inductive CompileError where
  | partitionAssertionPanic (key : String)
  | emptySelectPanic
  deriving DecidableEq

/-- `dynamodb.QueryInput` restricted to the fields the compiler sets.
`IndexName = none` means the primary index (the designator is omitted);
option fields are `none` when the corresponding Go pointer is left nil. -/
structure QueryInput where
  TableName : String
  IndexName : Option String
  KeyConditionExpression : KeyCond
  FilterExpression : Option Cond
  ProjectionExpression : Option (List String)
  Limit : Option Int
  ConsistentRead : Option Bool
  ScanIndexForward : Option Bool

/-- The sort-key clause of the key condition: the switch over filter variants
in `constructQueryInputGivenIndex` (queryexpr.go lines 174-194). -/
def keyCondOfSortFilter (sortKey : String) (f : Filter) : KeyCond :=
  match f with
  | .equals _ v => .keyEqual sortKey v
  | .lessThan _ v => .keyLessThan sortKey v
  | .greaterThan _ v => .keyGreaterThan sortKey v
  | .lessThanEqual _ v => .keyLessThanEqual sortKey v
  | .greaterThanEqual _ v => .keyGreaterThanEqual sortKey v
  | .between _ lo hi => .keyBetween sortKey lo hi
  | .beginsWith _ p => .keyBeginsWith sortKey p

/-- A remaining filter as a filter-condition term: the switch in
`constructQueryInputGivenIndex` (queryexpr.go lines 205-225). -/
def condOfFilter (key : String) (f : Filter) : Cond :=
  match f with
  | .equals _ v => .nameEqual key v
  | .lessThan _ v => .nameLessThan key v
  | .greaterThan _ v => .nameGreaterThan key v
  | .lessThanEqual _ v => .nameLessThanEqual key v
  | .greaterThanEqual _ v => .nameGreaterThanEqual key v
  | .between _ lo hi => .nameBetween key lo hi
  | .beginsWith _ p => .nameBeginsWith key p

/-- `QueryExpr.constructQueryInputGivenIndex` (queryexpr.go lines 160-282):
start the key condition from the partition key's Equals filter; if the index
is composite and a filter exists on its sort key, fold that filter into the
key condition with AND and drop it from the remaining set; the remaining
filters plus the caller's raw conditions become the filter condition (absent
when zero terms, the single term as-is, otherwise one AND across all);
projection, table/index designators, limit, consistency and scan direction
are attached as in the source.  The Go `range` over the remaining filter map
iterates in unspecified order; the embedding uses insertion order. -/
def QueryExpr.constructQueryInputGivenIndex (expr : QueryExpr) (index : TableIndex) :
    Except CompileError QueryInput := do
  let filters0 := expr.filters
  let pf? := filters0.find? (fun f => f.key == index.PartitionKey)
  let v ← match pf? with
    | some (.equals _ v) => pure v
    | _ => throw (.partitionAssertionPanic index.PartitionKey)
  let kce0 := KeyCond.keyEqual index.PartitionKey v
  let filters1 := filters0.filter (fun f => f.key != index.PartitionKey)
  let (kce, filters2) :=
    if index.IsComposite then
      match filters1.find? (fun f => f.key == index.SortKey) with
      | some f =>
        (KeyCond.and kce0 (keyCondOfSortFilter index.SortKey f),
         filters1.filter (fun g => g.key != index.SortKey))
      | none => (kce0, filters1)
    else (kce0, filters1)
  let filterConditions :=
    filters2.map (fun f => condOfFilter f.key f) ++ expr.additionalConditions
  let filterExpression : Option Cond :=
    match filterConditions with
    | [] => none
    | [c] => some c
    | c0 :: c1 :: rest => some (.andAll c0 c1 rest)
  let projection? ←
    if expr.attributesSpecified then
      match expr.attributes with
      | [] => throw CompileError.emptySelectPanic
      | attrs => pure (some attrs)
    else pure none
  return {
    TableName := index.TableName
    IndexName := if index.Name != tablePrimaryIndexName then some index.Name else none
    KeyConditionExpression := kce
    FilterExpression := filterExpression
    ProjectionExpression := projection?
    Limit := if expr.limitSpecified then some expr.limit else none
    ConsistentRead := if expr.consistentRead then some true else none
    ScanIndexForward := if expr.orderMatters then some (!expr.orderDescending) else none
  }

/-- A result page returned by the query-execution collaborator
(`dynamodb.QueryOutput` restricted to the fields the parser reads).
`LastEvaluatedKey = none` models a nil map. -/
structure QueryOutput where
  Items : List AttrMap
  LastEvaluatedKey : Option AttrMap

/-- The outcome of one backend fetch (`baseClient.QueryWithContext`):
either a network/store error or a result page. -/
inductive FetchResult where
  | failure (e : String)
  | success (out : QueryOutput)

/-- `lastEvaluatedKeyIsEmpty` (queryparser.go lines 95-97): nil or empty. -/
def lastEvaluatedKeyIsEmpty : Option AttrMap → Bool
  | none => true
  | some m => List.isEmpty m

/-- The mutable pagination state of `QueryParser` (queryparser.go lines
14-29).  `exclusiveStartKey` is `queryInput.ExclusiveStartKey`, the one
request field the parser mutates. -/
structure ParserState where
  exclusiveStartKey : Option AttrMap
  lastEvaluatedKey : Option AttrMap
  bufferedItemsRemaining : Nat
  bufferedItems : List AttrMap
  totalItemsParsed : Nat
  totalPagesParsed : Nat
  allPagesParsed : Bool
  parsingComplete : Bool
  deriving DecidableEq

/-- The parser state constructed by `Table.Query` (query.go lines 26-31):
empty buffer, zero counters, all flags clear. -/
def initialParserState : ParserState :=
  { exclusiveStartKey := none
    lastEvaluatedKey := none
    bufferedItemsRemaining := 0
    bufferedItems := []
    totalItemsParsed := 0
    totalPagesParsed := 0
    allPagesParsed := false
    parsingComplete := false }

/-- Which terminal branch of `Next` produced the `ParsingComplete` error.
The Go code returns the one sentinel `ParsingComplete` in every branch and
distinguishes the branches only by the logged message; the tag records that
message. -/
inductive TerminalReason where
  | alreadyComplete
  | allPagesParsed
  | maxPaginationReached
  | noItemsReturned
  deriving DecidableEq

/-- The value `QueryParser.Next` returns to the caller: the decoded record on
success, the `ParsingComplete` sentinel, a propagated backend error, or a
propagated decode (`UnmarshalMap`) error.  `panicked` models the Go runtime
panic of an out-of-range buffer access (unreachable from states the parser
itself produces). -/
inductive NextResult where
  | ok (item : AttrMap)
  | parsingComplete (reason : TerminalReason)
  | backendError (e : String)
  | decodeError (e : String)
  | panicked
  deriving DecidableEq

/-- `NextResult.isOk`: the call succeeded and yielded a record. -/
def NextResult.isOk : NextResult → Bool
  | .ok _ => true
  | _ => false

/-- The full outcome of one `Next` call: the returned value, the parser state
after the call, and whether a backend fetch was issued during the call. -/
structure NextOutcome where
  result : NextResult
  state : ParserState
  fetchPerformed : Bool
  deriving DecidableEq

/-- The buffer-consumption tail of `QueryParser.Next` (queryparser.go lines
82-92): read the item at `len(bufferedItems) - bufferedItemsRemaining`,
decrement the remaining count, increment the items-parsed count, set the
terminal flag when the count reaches `expr.limit`, and return the decode
outcome for the item.  `decodeRes` is the outcome of the
`dynamodbattribute.UnmarshalMap` collaborator on this item (`none` =
success).  A remaining count exceeding the buffer length would make the Go
index negative and panic before any mutation. -/
def consumeBuffered (expr : QueryExpr) (s : ParserState) (decodeRes : Option String)
    (fetched : Bool) : NextOutcome :=
  if s.bufferedItems.length < s.bufferedItemsRemaining then
    ⟨.panicked, s, fetched⟩
  else
    let thisItemIndex := s.bufferedItems.length - s.bufferedItemsRemaining
    match s.bufferedItems.get? thisItemIndex with
    | none => ⟨.panicked, s, fetched⟩
    | some thisItem =>
      let s2 := { s with bufferedItemsRemaining := s.bufferedItemsRemaining - 1,
                         totalItemsParsed := s.totalItemsParsed + 1 }
      let s3 := if (s2.totalItemsParsed : Int) == expr.limit
                then { s2 with parsingComplete := true } else s2
      match decodeRes with
      | some e => ⟨.decodeError e, s3, fetched⟩
      | none => ⟨.ok thisItem, s3, fetched⟩

/-- `QueryParser.Next` (queryparser.go lines 39-93) as a state transition.
`fetch` is the response of the backend collaborator, consulted only if the
call issues a fetch; `decodeRes` is the outcome of decoding the consumed
record into the caller's destination, consulted only if a record is
consumed.  Branch order follows the source: terminal-flag check; buffer
refill (all-pages / max-pagination termination, fetch, empty-page
termination, token and counter bookkeeping); buffer consumption. -/
def nextStep (expr : QueryExpr) (s : ParserState) (fetch : FetchResult)
    (decodeRes : Option String) : NextOutcome :=
  if s.parsingComplete then
    ⟨.parsingComplete .alreadyComplete, s, false⟩
  else if s.bufferedItemsRemaining = 0 then
    if s.allPagesParsed then
      ⟨.parsingComplete .allPagesParsed, { s with parsingComplete := true }, false⟩
    else if expr.maxPaginationSpecified &&
        (s.totalPagesParsed : Int) == expr.maxPagination then
      ⟨.parsingComplete .maxPaginationReached, { s with parsingComplete := true }, false⟩
    else
      let s1 := { s with exclusiveStartKey := s.lastEvaluatedKey }
      match fetch with
      | .failure e => ⟨.backendError e, s1, true⟩
      | .success out =>
        if out.Items.isEmpty then
          ⟨.parsingComplete .noItemsReturned, { s1 with parsingComplete := true }, true⟩
        else
          let s2 := if lastEvaluatedKeyIsEmpty out.LastEvaluatedKey
                    then { s1 with allPagesParsed := true }
                    else { s1 with lastEvaluatedKey := out.LastEvaluatedKey }
          consumeBuffered expr
            { s2 with totalPagesParsed := s2.totalPagesParsed + 1,
                      bufferedItems := out.Items,
                      bufferedItemsRemaining := out.Items.length }
            decodeRes true
  else
    consumeBuffered expr s decodeRes false

/-! ## Helper lemmas -/

/-- A call on a parser whose terminal flag is set returns the
`ParsingComplete` sentinel unchanged, for any collaborator behaviour. -/
theorem nextStep_terminal (expr : QueryExpr) (s : ParserState) (fetch : FetchResult)
    (d : Option String) (h : s.parsingComplete = true) :
    nextStep expr s fetch d = ⟨.parsingComplete .alreadyComplete, s, false⟩ := by
  unfold nextStep
  rw [h]
  rfl

/-- Every `Next` call either returns early with a result that yields no
record — identically for every decode outcome — or consumes from the buffer
via `consumeBuffered` on a state with the same items-parsed count and a clear
terminal flag, with the decode outcome passed through. -/
theorem nextStep_decomp (expr : QueryExpr) (s : ParserState) (fetch : FetchResult) :
    (∃ res st fp, res.isOk = false ∧
      ∀ d : Option String, nextStep expr s fetch d = ⟨res, st, fp⟩) ∨
    (∃ (s2 : ParserState) (fetched : Bool),
      s2.totalItemsParsed = s.totalItemsParsed ∧ s2.parsingComplete = false ∧
      ∀ d : Option String, nextStep expr s fetch d = consumeBuffered expr s2 d fetched) := by
  obtain ⟨esk, lek, rem, buf, tip, tpp, app, pc⟩ := s
  cases pc with
  | true =>
    exact .inl ⟨.parsingComplete .alreadyComplete, _, false, rfl,
      fun d => by unfold nextStep; rfl⟩
  | false =>
    cases rem with
    | succ n =>
      exact .inr ⟨_, false, rfl, rfl, fun d => by unfold nextStep; rfl⟩
    | zero =>
      cases app with
      | true =>
        exact .inl ⟨.parsingComplete .allPagesParsed, _, false, rfl,
          fun d => by unfold nextStep; rfl⟩
      | false =>
        cases hmax : expr.maxPaginationSpecified &&
            ((tpp : Int) == expr.maxPagination) with
        | true =>
          exact .inl ⟨.parsingComplete .maxPaginationReached, _, false, rfl,
            fun d => by unfold nextStep; rw [hmax]; rfl⟩
        | false =>
          cases fetch with
          | failure e =>
            exact .inl ⟨.backendError e, _, true, rfl,
              fun d => by unfold nextStep; rw [hmax]; rfl⟩
          | success out =>
            obtain ⟨items, lekOut⟩ := out
            cases items with
            | nil =>
              exact .inl ⟨.parsingComplete .noItemsReturned, _, true, rfl,
                fun d => by unfold nextStep; rw [hmax]; rfl⟩
            | cons a as =>
              cases hlek : lastEvaluatedKeyIsEmpty lekOut with
              | true =>
                refine .inr ⟨ParserState.mk lek lek ((a :: as).length) (a :: as)
                  tip (tpp + 1) true false, true, rfl, rfl, fun d => ?_⟩
                simp only [nextStep, hmax, hlek, List.isEmpty]
                rfl
              | false =>
                refine .inr ⟨ParserState.mk lek lekOut ((a :: as).length) (a :: as)
                  tip (tpp + 1) false false, true, rfl, rfl, fun d => ?_⟩
                simp only [nextStep, hmax, hlek, List.isEmpty]
                rfl

/-- `consumeBuffered` commits the same state mutations whatever the decode
outcome; a decode failure merely replaces the returned record with the decode
error, surfaced as-is. -/
theorem consumeBuffered_decode_indep (expr : QueryExpr) (s : ParserState)
    (e : String) (fetched : Bool) :
    (consumeBuffered expr s (some e) fetched).state =
      (consumeBuffered expr s none fetched).state ∧
    (consumeBuffered expr s (some e) fetched).fetchPerformed =
      (consumeBuffered expr s none fetched).fetchPerformed ∧
    ∀ item : AttrMap, (consumeBuffered expr s none fetched).result = .ok item →
      (consumeBuffered expr s (some e) fetched).result = .decodeError e := by
  unfold consumeBuffered
  refine ⟨?_, ?_, fun item h => ?_⟩
  · rcases Nat.lt_or_ge s.bufferedItems.length s.bufferedItemsRemaining with hlt | hge
    · simp only [if_pos hlt]
    · simp only [if_neg (Nat.not_lt.mpr hge)]
      cases hget : s.bufferedItems.get?
          (s.bufferedItems.length - s.bufferedItemsRemaining) with
      | none => simp only [hget]
      | some item0 => simp only [hget]
  · rcases Nat.lt_or_ge s.bufferedItems.length s.bufferedItemsRemaining with hlt | hge
    · simp only [if_pos hlt]
    · simp only [if_neg (Nat.not_lt.mpr hge)]
      cases hget : s.bufferedItems.get?
          (s.bufferedItems.length - s.bufferedItemsRemaining) with
      | none => simp only [hget]
      | some item0 => simp only [hget]
  · rcases Nat.lt_or_ge s.bufferedItems.length s.bufferedItemsRemaining with hlt | hge
    · rw [if_pos hlt] at h
      exact absurd h (by simp)
    · simp only [if_neg (Nat.not_lt.mpr hge)] at h ⊢
      cases hget : s.bufferedItems.get?
          (s.bufferedItems.length - s.bufferedItemsRemaining) with
      | none =>
        simp only [hget] at h
        exact absurd h (by simp)
      | some item0 =>
        simp only [hget]

/-- When `consumeBuffered` yields a record, the items-parsed count goes up by
one and the terminal flag is set exactly when the new count equals the
configured limit. -/
theorem consumeBuffered_isOk_characterization (expr : QueryExpr) (s : ParserState)
    (d : Option String) (fetched : Bool)
    (hpc : s.parsingComplete = false)
    (hok : (consumeBuffered expr s d fetched).result.isOk = true) :
    (consumeBuffered expr s d fetched).state.totalItemsParsed =
      s.totalItemsParsed + 1 ∧
    ((consumeBuffered expr s d fetched).state.parsingComplete = true ↔
      ((s.totalItemsParsed + 1 : Nat) : Int) = expr.limit) := by
  unfold consumeBuffered at hok ⊢
  by_cases hlt : s.bufferedItems.length < s.bufferedItemsRemaining
  · rw [if_pos hlt] at hok
    simp [NextResult.isOk] at hok
  · rw [if_neg hlt] at hok ⊢
    cases hget : s.bufferedItems.get?
        (s.bufferedItems.length - s.bufferedItemsRemaining) with
    | none =>
      simp only [hget] at hok
      simp [NextResult.isOk] at hok
    | some item0 =>
      simp only [hget] at hok ⊢
      cases d with
      | some e => simp [NextResult.isOk] at hok
      | none =>
        refine ⟨?_, ?_⟩
        · dsimp only
          split <;> rfl
        · dsimp only
          split
          · next hcond =>
            simp only [beq_iff_eq] at hcond
            simpa using hcond
          · next hcond =>
            simp only [beq_iff_eq] at hcond
            simp [hpc]
            omega

/-! ## Theorems -/

/-- C9: for the composite index with partition key `tenant` and sort key `ts`,
and the specification `tenant = "t1" AND ts BETWEEN 100 AND 200 AND status =
"active"`, compilation folds the sort-key filter into the key condition with
AND and leaves `status = "active"` as the sole filter condition. -/
theorem compile_sort_key_folded_scenario :
    (((((((NewQuery "tenant").Equals (.str "t1")).And "ts").Between (.int 100)
        (.int 200)).And "status").Equals (.str "active")).constructQueryInputGivenIndex
      { Name := "tenant-ts-index"
        TableName := "T"
        PartitionKey := "tenant"
        SortKey := "ts"
        IsComposite := true
        IncludesAllAttributes := true
        ConsistentReadable := false }) =
    .ok
      { TableName := "T"
        IndexName := some "tenant-ts-index"
        KeyConditionExpression :=
          .and (.keyEqual "tenant" (.str "t1"))
            (.keyBetween "ts" (.int 100) (.int 200))
        FilterExpression := some (.nameEqual "status" (.str "active"))
        ProjectionExpression := none
        Limit := none
        ConsistentRead := none
        ScanIndexForward := none } := rfl

/-- C2 counterexample: `ConsistentRead(true)` followed by `MaxPagination(5)`
leaves the pagination cap at 5, not 1 — the claim that the cap of 1 is
retained regardless of call order is false. -/
theorem consistentRead_then_maxPagination_counterexample :
    ¬ (((((NewQuery "a").Equals (.str "x")).ConsistentRead true).MaxPagination
        5).maxPagination = 1) ∧
    ((((NewQuery "a").Equals (.str "x")).ConsistentRead true).MaxPagination
        5).maxPagination = 5 := by
  constructor
  · decide
  · rfl

/-- C2 amended: each setter is last-writer for the pagination cap.
`ConsistentRead(true)` forces the cap to 1 at the moment of the call, so
consistency set after max-pagination leaves the cap at 1; but
`MaxPagination(n)` called after `ConsistentRead(true)` overwrites the cap
to `n`. -/
theorem maxPagination_cap_last_writer (expr : QueryExpr) (n : Int) :
    ((expr.MaxPagination n).ConsistentRead true).maxPagination = 1 ∧
    ((expr.MaxPagination n).ConsistentRead true).maxPaginationSpecified = true ∧
    ((expr.ConsistentRead true).MaxPagination n).maxPagination = n := by
  exact ⟨rfl, rfl, rfl⟩

/-- C1 counterexample: after a first conflict on key `"a"` (an `equals`
condition) and a later conflict on key `"b"` (a `between` condition), the
build-error slot holds the error for `"b"`/`"between"` — the most recent
conflict — not the first structural violation, so the slot is not set-once. -/
theorem buildErr_records_last_conflict_counterexample :
    ((((((((NewQuery "a").Equals (.str "v1")).And "b").Equals (.str "v2")).And
        "a").Equals (.str "v3")).And "b").Between (.int 1) (.int 2)).buildErr =
      some { key := "b", conditionName := "between" } ∧
    (((((((NewQuery "a").Equals (.str "v1")).And "b").Equals (.str "v2")).And
        "a").Equals (.str "v3")).buildErr =
      some { key := "a", conditionName := "equals" }) ∧
    ¬ ((((((((NewQuery "a").Equals (.str "v1")).And "b").Equals (.str "v2")).And
        "a").Equals (.str "v3")).And "b").Between (.int 1) (.int 2)).buildErr =
      some { key := "a", conditionName := "equals" } := by
  refine ⟨rfl, rfl, ?_⟩
  decide

/-- C1 amended: inserting a filter for a key that already has one does not
raise: it leaves the filter list unchanged (the first-inserted filter stays in
place), overwrites the build-error slot with an error naming the conflicting
key and condition name — so the slot records the most recent conflict, not
the first — and any later `Table.Query` on the expression fails with that
currently recorded error. -/
theorem addFilter_conflict_defers_and_overwrites (expr : QueryExpr) (v : Filter)
    (conditionName : String) (h : expr.hasFilterForKey v.key = true) :
    (expr.addFilter v conditionName).filters = expr.filters ∧
    (expr.addFilter v conditionName).buildErr =
      some { key := v.key, conditionName := conditionName } ∧
    ∀ table : Table, table.Query (expr.addFilter v conditionName) =
      .error (.build { key := v.key, conditionName := conditionName }) := by
  refine ⟨?_, ?_, fun table => ?_⟩ <;>
    simp [QueryExpr.addFilter, h, Table.Query]

/-- Witness for C1 amended: a second `between` filter on key `"a"` conflicts
with the existing `equals` filter; the filter list is unchanged, the error
names `"a"`/`"between"`, and `Table.Query` fails with it. -/
theorem addFilter_conflict_defers_and_overwrites_witness :
    (((NewQuery "a").Equals (.str "v1")).addFilter (.between "a" (.int 1) (.int 2))
        "between").filters = ((NewQuery "a").Equals (.str "v1")).filters ∧
    (((NewQuery "a").Equals (.str "v1")).addFilter (.between "a" (.int 1) (.int 2))
        "between").buildErr = some { key := "a", conditionName := "between" } ∧
    Table.Query { Name := "T", allIndexes := [] }
        (((NewQuery "a").Equals (.str "v1")).addFilter
          (.between "a" (.int 1) (.int 2)) "between") =
      .error (.build { key := "a", conditionName := "between" }) := by
  have h := addFilter_conflict_defers_and_overwrites
    ((NewQuery "a").Equals (.str "v1")) (.between "a" (.int 1) (.int 2))
    "between" (by decide)
  exact ⟨h.1, h.2.1, h.2.2 { Name := "T", allIndexes := [] }⟩

/-- C4: once the terminal flag is set, every `Next` call fails with the
`ParsingComplete` sentinel, leaves the parser state untouched, and issues no
backend fetch (for every possible backend response and decode outcome — in
particular it cannot panic or block on the collaborator). -/
theorem parsingComplete_state_is_permanent (expr : QueryExpr) (s : ParserState)
    (fetch : FetchResult) (decodeRes : Option String)
    (h : s.parsingComplete = true) :
    nextStep expr s fetch decodeRes =
      ⟨.parsingComplete .alreadyComplete, s, false⟩ := by
  unfold nextStep
  rw [h]
  rfl

/-- Witness for C4: a parser in the terminal state rejects a further call
without consulting the (failing) backend. -/
theorem parsingComplete_state_is_permanent_witness :
    nextStep {} { initialParserState with parsingComplete := true }
        (.failure "network down") (some "bad record") =
      ⟨.parsingComplete .alreadyComplete,
        { initialParserState with parsingComplete := true }, false⟩ := by
  exact parsingComplete_state_is_permanent {}
    { initialParserState with parsingComplete := true }
    (.failure "network down") (some "bad record") rfl

/-- C5: when a fetch succeeds but returns zero items — even with a
continuation token present in the page — the parser sets the terminal flag
permanently and this call fails with the `no items returned` parsing-complete
condition; the token is not followed, so enumeration never silently continues
past an empty page (every later call fails terminally, second conjunct). -/
theorem empty_page_terminates_parsing (expr : QueryExpr) (s : ParserState)
    (out : QueryOutput) (decodeRes : Option String)
    (h1 : s.parsingComplete = false)
    (h2 : s.bufferedItemsRemaining = 0)
    (h3 : s.allPagesParsed = false)
    (h4 : (expr.maxPaginationSpecified &&
      (s.totalPagesParsed : Int) == expr.maxPagination) = false)
    (h5 : out.Items = []) :
    nextStep expr s (.success out) decodeRes =
      ⟨.parsingComplete .noItemsReturned,
        { s with exclusiveStartKey := s.lastEvaluatedKey, parsingComplete := true },
        true⟩ ∧
    ∀ (fetch2 : FetchResult) (decodeRes2 : Option String),
      nextStep expr
          { s with exclusiveStartKey := s.lastEvaluatedKey, parsingComplete := true }
          fetch2 decodeRes2 =
        ⟨.parsingComplete .alreadyComplete,
          { s with exclusiveStartKey := s.lastEvaluatedKey, parsingComplete := true },
          false⟩ := by
  obtain ⟨esk, lek, rem, buf, tip, tpp, app, pc⟩ := s
  obtain ⟨items, lekOut⟩ := out
  simp only at h1 h2 h3 h4 h5
  subst h1 h2 h3 h5
  constructor
  · unfold nextStep
    rw [h4]
    rfl
  · intro fetch2 decodeRes2
    unfold nextStep
    rfl

/-- Witness for C5: a first fetch returning an empty page that still carries
a continuation token terminates parsing with the no-items condition, and the
following call fails terminally without a fetch. -/
theorem empty_page_terminates_parsing_witness :
    nextStep {} initialParserState
        (.success { Items := [], LastEvaluatedKey := some [("id", .int 7)] }) none =
      ⟨.parsingComplete .noItemsReturned,
        { initialParserState with parsingComplete := true }, true⟩ ∧
    nextStep {} { initialParserState with parsingComplete := true }
        (.failure "boom") none =
      ⟨.parsingComplete .alreadyComplete,
        { initialParserState with parsingComplete := true }, false⟩ := by
  have h := empty_page_terminates_parsing {} initialParserState
    { Items := [], LastEvaluatedKey := some [("id", .int 7)] } none
    rfl rfl rfl rfl rfl
  exact ⟨h.1, h.2 (.failure "boom") none⟩

/-- C6: when the backend fetch fails, `Next` returns the backend error
unchanged, does not set the terminal flag, and leaves every piece of
pagination state — continuation token, page buffer, buffer cursor,
items-yielded count, pages-fetched count, all-pages flag — untouched; a
retried call behaves exactly as the original call would (last conjunct),
so the same fetch is attempted again. -/
theorem fetch_failure_preserves_pagination_state (expr : QueryExpr)
    (s : ParserState) (e : String) (decodeRes : Option String)
    (h1 : s.parsingComplete = false)
    (h2 : s.bufferedItemsRemaining = 0)
    (h3 : s.allPagesParsed = false)
    (h4 : (expr.maxPaginationSpecified &&
      (s.totalPagesParsed : Int) == expr.maxPagination) = false) :
    (nextStep expr s (.failure e) decodeRes).result = .backendError e ∧
    (nextStep expr s (.failure e) decodeRes).state.lastEvaluatedKey =
      s.lastEvaluatedKey ∧
    (nextStep expr s (.failure e) decodeRes).state.bufferedItems =
      s.bufferedItems ∧
    (nextStep expr s (.failure e) decodeRes).state.bufferedItemsRemaining =
      s.bufferedItemsRemaining ∧
    (nextStep expr s (.failure e) decodeRes).state.totalItemsParsed =
      s.totalItemsParsed ∧
    (nextStep expr s (.failure e) decodeRes).state.totalPagesParsed =
      s.totalPagesParsed ∧
    (nextStep expr s (.failure e) decodeRes).state.allPagesParsed =
      s.allPagesParsed ∧
    (nextStep expr s (.failure e) decodeRes).state.parsingComplete = false ∧
    ∀ (fetch2 : FetchResult) (decodeRes2 : Option String),
      nextStep expr (nextStep expr s (.failure e) decodeRes).state fetch2 decodeRes2 =
        nextStep expr s fetch2 decodeRes2 := by
  obtain ⟨esk, lek, rem, buf, tip, tpp, app, pc⟩ := s
  simp only at h1 h2 h3 h4
  subst h1 h2 h3
  have hmain : nextStep expr
      (ParserState.mk esk lek 0 buf tip tpp false false) (.failure e) decodeRes =
      ⟨.backendError e, ParserState.mk lek lek 0 buf tip tpp false false, true⟩ := by
    unfold nextStep
    rw [h4]
    rfl
  rw [hmain]
  refine ⟨rfl, rfl, rfl, rfl, rfl, rfl, rfl, rfl, fun fetch2 decodeRes2 => ?_⟩
  unfold nextStep
  rw [h4]
  rfl

/-- Witness for C6: a failed first fetch surfaces the error, preserves the
fresh parser state, and a retried call against a working backend succeeds
identically to a first call. -/
theorem fetch_failure_preserves_pagination_state_witness :
    (nextStep {} initialParserState (.failure "timeout") none).result =
      .backendError "timeout" ∧
    (nextStep {} initialParserState (.failure "timeout") none).state.totalPagesParsed
      = 0 ∧
    (nextStep {} initialParserState (.failure "timeout") none).state.parsingComplete
      = false ∧
    nextStep {} (nextStep {} initialParserState (.failure "timeout") none).state
        (.success { Items := [[("id", .int 1)]], LastEvaluatedKey := none }) none =
      nextStep {} initialParserState
        (.success { Items := [[("id", .int 1)]], LastEvaluatedKey := none }) none := by
  have h := fetch_failure_preserves_pagination_state {} initialParserState
    "timeout" none rfl rfl rfl rfl
  exact ⟨h.1, h.2.2.2.2.2.1, h.2.2.2.2.2.2.2.1,
    h.2.2.2.2.2.2.2.2
      (.success { Items := [[("id", .int 1)]], LastEvaluatedKey := none }) none⟩

/-- C10: a decode failure is surfaced to the caller as-is and commits exactly
the state mutations a successful decode of the same record would commit: the
post-call parser state and fetch behaviour are identical for the failing and
succeeding decode, so retrying with a different destination or skipping is
safe. -/
theorem decode_failure_preserves_pagination_state (expr : QueryExpr)
    (s : ParserState) (fetch : FetchResult) (e : String) :
    (nextStep expr s fetch (some e)).state = (nextStep expr s fetch none).state ∧
    (nextStep expr s fetch (some e)).fetchPerformed =
      (nextStep expr s fetch none).fetchPerformed ∧
    ∀ item : AttrMap, (nextStep expr s fetch none).result = .ok item →
      (nextStep expr s fetch (some e)).result = .decodeError e := by
  rcases nextStep_decomp expr s fetch with ⟨res, st, fp, hisOk, hall⟩ |
    ⟨s2, fetched, htip, hpc, hall⟩
  · rw [hall (some e), hall none]
    refine ⟨rfl, rfl, fun item h => ?_⟩
    dsimp at h
    rw [h] at hisOk
    simp [NextResult.isOk] at hisOk
  · rw [hall (some e), hall none]
    exact consumeBuffered_decode_indep expr s2 e fetched

/-- Witness for C10: with one buffered record, the decode-failure call and
the successful call leave the same state, and the failure surfaces the decode
error. -/
theorem decode_failure_preserves_pagination_state_witness :
    (nextStep {} (ParserState.mk none none 1 [[("id", .int 1)]] 0 1 false false)
        (.failure "unused") (some "bad record")).state =
      (nextStep {} (ParserState.mk none none 1 [[("id", .int 1)]] 0 1 false false)
        (.failure "unused") none).state ∧
    (nextStep {} (ParserState.mk none none 1 [[("id", .int 1)]] 0 1 false false)
        (.failure "unused") (some "bad record")).result = .decodeError "bad record" := by
  have h := decode_failure_preserves_pagination_state {}
    (ParserState.mk none none 1 [[("id", .int 1)]] 0 1 false false)
    (.failure "unused") "bad record"
  exact ⟨h.1, h.2.2 [("id", .int 1)] (by decide)⟩

/-- C3: whenever a `Next` call yields a record under a configured limit `N`,
the items-yielded count goes up by one, and the call sets the terminal flag
exactly when the new count equals `N` — so with `limit = N` the Nth
record-yielding call itself succeeds, is the call that sets the flag, and
(third conjunct) once the flag is set every subsequent call fails with
`ParsingComplete`. -/
theorem limit_reached_on_nth_item (expr : QueryExpr) (s : ParserState)
    (fetch : FetchResult) (decodeRes : Option String) (N : Int)
    (hN : expr.limit = N)
    (hok : (nextStep expr s fetch decodeRes).result.isOk = true) :
    (nextStep expr s fetch decodeRes).state.totalItemsParsed =
      s.totalItemsParsed + 1 ∧
    ((nextStep expr s fetch decodeRes).state.parsingComplete = true ↔
      ((s.totalItemsParsed + 1 : Nat) : Int) = N) ∧
    ((nextStep expr s fetch decodeRes).state.parsingComplete = true →
      ∀ (fetch2 : FetchResult) (decodeRes2 : Option String),
        nextStep expr (nextStep expr s fetch decodeRes).state fetch2 decodeRes2 =
          ⟨.parsingComplete .alreadyComplete,
            (nextStep expr s fetch decodeRes).state, false⟩) := by
  subst hN
  rcases nextStep_decomp expr s fetch with ⟨res, st, fp, hisOk, hall⟩ |
    ⟨s2, fetched, htip, hpc, hall⟩
  · rw [hall decodeRes] at hok
    dsimp at hok
    rw [hisOk] at hok
    simp at hok
  · rw [hall decodeRes] at hok ⊢
    have hchar := consumeBuffered_isOk_characterization expr s2 decodeRes fetched hpc hok
    refine ⟨?_, ?_, fun hdone fetch2 decodeRes2 => ?_⟩
    · rw [hchar.1, htip]
    · rw [htip] at hchar
      exact hchar.2
    · exact nextStep_terminal expr _ fetch2 decodeRes2 hdone

/-- Witness for C3: with `limit = 1`, the first record-yielding call
increments the count to the limit, sets the terminal flag on that same
successful call, and the following call fails with `ParsingComplete`. -/
theorem limit_reached_on_nth_item_witness :
    (nextStep (QueryExpr.Limit {} 1) initialParserState
        (.success ⟨[[("a", .int 1)], [("a", .int 2)]], some [("k", .str "t")]⟩) none).state.totalItemsParsed =
      initialParserState.totalItemsParsed + 1 ∧
    ((nextStep (QueryExpr.Limit {} 1) initialParserState
        (.success ⟨[[("a", .int 1)], [("a", .int 2)]], some [("k", .str "t")]⟩) none).state.parsingComplete = true ↔
      ((initialParserState.totalItemsParsed + 1 : Nat) : Int) = 1) ∧
    nextStep (QueryExpr.Limit {} 1)
        (nextStep (QueryExpr.Limit {} 1) initialParserState
          (.success ⟨[[("a", .int 1)], [("a", .int 2)]], some [("k", .str "t")]⟩) none).state
        (.failure "must not fetch") none =
      ⟨.parsingComplete .alreadyComplete,
        (nextStep (QueryExpr.Limit {} 1) initialParserState
          (.success ⟨[[("a", .int 1)], [("a", .int 2)]], some [("k", .str "t")]⟩) none).state, false⟩ := by
  have h := limit_reached_on_nth_item (QueryExpr.Limit {} 1) initialParserState
    (.success ⟨[[("a", .int 1)], [("a", .int 2)]], some [("k", .str "t")]⟩) none 1 rfl (by decide)
  exact ⟨h.1, h.2.1, h.2.2 (by decide) (.failure "must not fetch") none⟩

/-- C7: when no index of the table has its partition key among the
specification's Equals-filter keys, executing the query fails with
`ErrNoViableIndexes` naming the table; and in general (second conjunct) an
index whose partition key lacks an Equals filter never survives the
viability filter, whatever the other constraints. -/
theorem no_partition_equals_no_viable_index (table : Table) (expr : QueryExpr)
    (hbuild : expr.buildErr = none)
    (h : ∀ idx ∈ table.allIndexes,
      (expr.getKeysOfFilterType .equalsV).contains idx.PartitionKey = false) :
    table.Query expr = .error (.noViableIndexes table.Name) ∧
    ∀ (t : Table) (e : QueryExpr) (idx : TableIndex),
      idx ∈ t.getViableQueryIndexes e →
      (e.getKeysOfFilterType .equalsV).contains idx.PartitionKey = true := by
  constructor
  · have hstep1 : table.allIndexes.filter
        (fun index => (expr.getKeysOfFilterType .equalsV).contains index.PartitionKey)
          = [] := by
      rw [List.filter_eq_nil_iff]
      intro a ha
      simpa using h a ha
    have hviable : table.getViableQueryIndexes expr = [] := by
      simp only [Table.getViableQueryIndexes]
      rw [hstep1]
      split <;> split <;> simp
    simp only [Table.Query, hbuild, Table.chooseIndexCandidates, hviable]
    rfl
  · intro t e idx hmem
    simp only [Table.getViableQueryIndexes] at hmem
    repeat'
      first
        | exact (List.mem_filter.mp hmem).2
        | split at hmem
        | replace hmem := List.mem_of_mem_filter hmem

/-- Witness for C7: a table whose only index has partition key `"p"` while
the specification's sole Equals filter is on `"q"` yields
`ErrNoViableIndexes`, and membership in a viable set implies the
partition-equality condition at a concrete instance. -/
theorem no_partition_equals_no_viable_index_witness :
    Table.Query
      { Name := "T"
        allIndexes := [{ Name := "#primary", TableName := "T", PartitionKey := "p",
                         IsComposite := false, IncludesAllAttributes := true,
                         ConsistentReadable := true }] }
      ((NewQuery "q").Equals (.str "x")) =
      .error (.noViableIndexes "T") := by
  have h := no_partition_equals_no_viable_index
    { Name := "T"
      allIndexes := [{ Name := "#primary", TableName := "T", PartitionKey := "p",
                       IsComposite := false, IncludesAllAttributes := true,
                       ConsistentReadable := true }] }
    ((NewQuery "q").Equals (.str "x")) rfl (by decide)
  exact h.1

/-- C8: among the viable indexes the priority set prefers those whose sort
key carries an Equals filter, else a BeginsWith filter, else a Between
filter, else the full viable set (conjuncts 2-5); in particular, for viable
indexes `A` (sort key under an Equals filter) and `B` (sort key under a
Between filter, not an Equals filter) the priority set is exactly `[A]`, so
the chosen index is `A`. -/
theorem sort_key_priority_selection (expr : QueryExpr) (A B : TableIndex)
    (hA : (expr.getKeysOfFilterType .equalsV).contains A.SortKey = true)
    (hBeq : (expr.getKeysOfFilterType .equalsV).contains B.SortKey = false)
    (hBbt : (expr.getKeysOfFilterType .betweenV).contains B.SortKey = true) :
    priorityIndexes expr [A, B] = [A] ∧
    (∀ viable : List TableIndex, prioritySubset expr viable .equalsV ≠ [] →
      priorityIndexes expr viable = prioritySubset expr viable .equalsV) ∧
    (∀ viable : List TableIndex, prioritySubset expr viable .equalsV = [] →
      prioritySubset expr viable .beginsWithV ≠ [] →
      priorityIndexes expr viable = prioritySubset expr viable .beginsWithV) ∧
    (∀ viable : List TableIndex, prioritySubset expr viable .equalsV = [] →
      prioritySubset expr viable .beginsWithV = [] →
      prioritySubset expr viable .betweenV ≠ [] →
      priorityIndexes expr viable = prioritySubset expr viable .betweenV) ∧
    (∀ viable : List TableIndex, prioritySubset expr viable .equalsV = [] →
      prioritySubset expr viable .beginsWithV = [] →
      prioritySubset expr viable .betweenV = [] →
      priorityIndexes expr viable = viable) := by
  refine ⟨?_, ?_, ?_, ?_, ?_⟩
  · have hA2 : A.SortKey ∈ expr.getKeysOfFilterType .equalsV := by
      simpa using hA
    have hB2 : B.SortKey ∉ expr.getKeysOfFilterType .equalsV := by
      simpa using hBeq
    have h1 : prioritySubset expr [A, B] .equalsV = [A] := by
      simp [prioritySubset, List.filter, hA2, hB2]
    simp [priorityIndexes, h1]
  · intro viable hne
    simp [priorityIndexes, hne]
  · intro viable h1 hne
    simp [priorityIndexes, h1, hne]
  · intro viable h1 h2 hne
    simp [priorityIndexes, h1, h2, hne]
  · intro viable h1 h2 h3
    simp [priorityIndexes, h1, h2, h3]

/-- Witness for C8: with an Equals filter on `"s1"` and a Between filter on
`"s2"`, index `A` sorting on `"s1"` beats index `B` sorting on `"s2"`. -/
theorem sort_key_priority_selection_witness :
    priorityIndexes (((NewQuery "s1").Equals (.str "x")).And "s2"
        |>.Between (.int 1) (.int 2))
      [{ Name := "A", TableName := "T", PartitionKey := "p", SortKey := "s1",
         IsComposite := true, IncludesAllAttributes := true,
         ConsistentReadable := true },
       { Name := "B", TableName := "T", PartitionKey := "p", SortKey := "s2",
         IsComposite := true, IncludesAllAttributes := true,
         ConsistentReadable := true }] =
    [{ Name := "A", TableName := "T", PartitionKey := "p", SortKey := "s1",
       IsComposite := true, IncludesAllAttributes := true,
       ConsistentReadable := true }] := by
  exact (sort_key_priority_selection
    (((NewQuery "s1").Equals (.str "x")).And "s2" |>.Between (.int 1) (.int 2))
    { Name := "A", TableName := "T", PartitionKey := "p", SortKey := "s1",
      IsComposite := true, IncludesAllAttributes := true,
      ConsistentReadable := true }
    { Name := "B", TableName := "T", PartitionKey := "p", SortKey := "s2",
      IsComposite := true, IncludesAllAttributes := true,
      ConsistentReadable := true }
    (by decide) (by decide) (by decide)).1

end Dynamodbfriend
